import Mathlib

/-!
Verification of the AVAX-CPoE proof-construction and proof-verification core.

The development shallowly embeds the TypeScript/Solidity sources:
  - src/sdk/src/utils.ts            (CryptoUtils: Merkle proofs, block attestation)
  - src/sdk/src/AvaxCPoE.ts         (AvaxCPoE.verifyProof)
  - frontend/src/zk/ProductionZKProofGenerator.ts (ZK generator and verifier)
  - src/contracts/contracts/CrossLendProtocol.sol (VaultSDKProtocol)

Hexadecimal hash strings and decimal bigint strings are modelled as natural
numbers.  Calls to keccak256 over a fixed abi encoding are modelled by
abstract function parameters (one per distinct encoding shape); claims that
need collision resistance take pairwise injectivity of the combining hash as
an explicit hypothesis and are instantiated at the injective pairing
function Nat.pair in the witnesses.  JavaScript exceptions are modelled with
Except String; a thrown error is an Except.error carrying the message.
-/

deriving instance DecidableEq for Except

/-- A transaction log, the fields hashed into a Merkle leaf by
CryptoUtils.generateMerkleProof and re-hashed by AvaxCPoE.verifyProof. -/
structure LogEntry where
  address : Nat
  topics : List Nat
  data : Nat
  logIndex : Nat
deriving DecidableEq, Repr

namespace CryptoUtils

/-- Result shape of CryptoUtils.generateMerkleProof. -/
structure MerkleProofOut where
  leaf : Nat
  proof : List Nat
  root : Nat
  index : Nat
deriving DecidableEq, Repr

/-- One level of the Merkle tree build: the inner for-loop of
generateMerkleProof.  Pairs are combined left-to-right with the
order-sensitive hash h2; an odd trailing node is paired with itself
(right = currentLevel[i+1] || left). -/
def buildLevel (h2 : Nat → Nat → Nat) : List Nat → List Nat
  | [] => []
  | [x] => [h2 x x]
  | x :: y :: rest => h2 x y :: buildLevel h2 rest

/-- The sibling elements pushed onto the proof array while processing one
level, for the pair containing index idx.  Mirrors the source exactly:
i is the even start of the pair, right falls back to left past the end, and
the element is pushed when sibling differs from left or the pair is complete
(condition: sibling !== left || i + 1 < currentLevel.length). -/
def levelSiblings (level : List Nat) (idx : Nat) : List Nat :=
  let i := 2 * (idx / 2)
  let left := level.getD i 0
  let right := level.getD (i + 1) left
  let sibling := if i = idx then right else left
  if sibling ≠ left ∨ i + 1 < level.length then [sibling] else []

/-- The while (currentLevel.length > 1) loop of generateMerkleProof, with an
explicit fuel bound (each iteration at least halves the level, so fuel =
initial length always suffices).  Returns the accumulated proof array and
the final currentLevel[0] (the root). -/
def genLoopF (h2 : Nat → Nat → Nat) : Nat → List Nat → Nat → List Nat × Nat
  | 0, level, _ => ([], level.getD 0 0)
  | fuel + 1, level, idx =>
    if level.length ≤ 1 then ([], level.getD 0 0)
    else
      let r := genLoopF h2 fuel (buildLevel h2 level) (idx / 2)
      (levelSiblings level idx ++ r.1, r.2)

/-- CryptoUtils.generateMerkleProof (src/sdk/src/utils.ts lines 5-72).
leafHash models keccak256 of the abi-encoded log fields; h2 models keccak256
of the concatenation of two node hashes. -/
def generateMerkleProof (h2 : Nat → Nat → Nat) (leafHash : LogEntry → Nat)
    (logs : List LogEntry) (targetIndex : Nat) : Except String MerkleProofOut :=
  if logs.length = 0 then
    .error "No logs provided for Merkle proof generation"
  else if logs.length ≤ targetIndex then
    .error "Target index out of bounds"
  else
    let leaves := logs.map leafHash
    let r := genLoopF h2 leaves.length leaves targetIndex
    .ok { leaf := leaves.getD targetIndex 0, proof := r.1, root := r.2, index := targetIndex }

/-- The root recomputation loop of CryptoUtils.verifyMerkleProof: walk the
proof elements, hashing left or right according to the parity of the running
index. -/
def computeRoot (h2 : Nat → Nat → Nat) : Nat → List Nat → Nat → Nat
  | c, [], _ => c
  | c, p :: ps, idx =>
    computeRoot h2 (if idx % 2 = 0 then h2 c p else h2 p c) ps (idx / 2)

/-- CryptoUtils.verifyMerkleProof (src/sdk/src/utils.ts lines 75-106). -/
def verifyMerkleProof (h2 : Nat → Nat → Nat)
    (leaf : Nat) (proof : List Nat) (root : Nat) (index : Nat) : Bool :=
  computeRoot h2 leaf proof index == root

/-- CryptoUtils.createBlockSignature (utils.ts lines 109-116): keccak256 of
the abi-encoded (blockHash, validatorSetHash, tag) triple, modelled by the
abstract hash sigHash. -/
def createBlockSignature (sigHash : Nat → Nat → Nat)
    (blockHash : Nat) (validatorSetHash : Nat) : Nat :=
  sigHash blockHash validatorSetHash

/-- CryptoUtils.verifyBlockSignature (utils.ts lines 119-126): recompute the
expected signature and compare. -/
def verifyBlockSignature (sigHash : Nat → Nat → Nat)
    (blockHash : Nat) (validatorSetHash : Nat) (signature : Nat) : Bool :=
  signature == createBlockSignature sigHash blockHash validatorSetHash

end CryptoUtils

/-- Block data as used by AvaxCPoE.verifyProof: only the number is read. -/
structure BlockInfo where
  number : Nat
deriving DecidableEq, Repr

/-- The signatures field of an event proof. -/
structure ProofSignatures where
  blockSignature : Nat
  validatorSetHash : Nat
deriving DecidableEq, Repr

/-- The event proof packaged by AvaxCPoE.generateProof and consumed by
AvaxCPoE.verifyProof (src/sdk/src/types via AvaxCPoE.ts). -/
structure EventProof where
  version : String
  eventId : Nat
  sourceSubnet : String
  blockHeight : Nat
  blockHash : Nat
  merkleProof : CryptoUtils.MerkleProofOut
  eventData : LogEntry
  signatures : ProofSignatures
  timestamp : Nat
deriving DecidableEq, Repr

/-- The per-check flags of a VerificationResult. -/
structure VerificationDetails where
  merkleValid : Bool
  signatureValid : Bool
  blockValid : Bool
  eventValid : Bool
deriving DecidableEq, Repr

/-- The structured outcome of AvaxCPoE.verifyProof. -/
structure VerificationResult where
  isValid : Bool
  details : VerificationDetails
  errors : List String
deriving DecidableEq, Repr

namespace AvaxCPoE

/-- AvaxCPoE.verifyProof (src/sdk/src/AvaxCPoE.ts lines 95-192).  getBlock
models this.provider.getBlock (none = block not found); leafHash is the same
abi-encode-and-keccak leaf hash used by CryptoUtils.generateMerkleProof;
sigHash as in CryptoUtils.createBlockSignature.  Checks run in source order,
short-circuiting with the recorded error and the detail flags set so far. -/
def verifyProof (h2 : Nat → Nat → Nat) (leafHash : LogEntry → Nat)
    (sigHash : Nat → Nat → Nat) (getBlock : Nat → Option BlockInfo)
    (proof : EventProof) : VerificationResult :=
  let details0 : VerificationDetails :=
    { merkleValid := false, signatureValid := false, blockValid := false, eventValid := false }
  if proof.version ≠ "1.0.0" then
    { isValid := false, details := details0, errors := ["Unsupported proof version"] }
  else
    match getBlock proof.blockHash with
    | none => { isValid := false, details := details0, errors := ["Block validation failed"] }
    | some block =>
      if block.number ≠ proof.blockHeight then
        { isValid := false, details := details0, errors := ["Block validation failed"] }
      else
        let details1 := { details0 with blockValid := true }
        if CryptoUtils.verifyMerkleProof h2 proof.merkleProof.leaf proof.merkleProof.proof
            proof.merkleProof.root proof.merkleProof.index = false then
          { isValid := false, details := details1, errors := ["Merkle proof verification failed"] }
        else
          let details2 := { details1 with merkleValid := true }
          if CryptoUtils.verifyBlockSignature sigHash proof.blockHash
              proof.signatures.validatorSetHash proof.signatures.blockSignature = false then
            { isValid := false, details := details2, errors := ["Block signature verification failed"] }
          else
            let details3 := { details2 with signatureValid := true }
            if leafHash proof.eventData ≠ proof.merkleProof.leaf then
              { isValid := false, details := details3, errors := ["Event data integrity check failed"] }
            else
              { isValid := true, details := { details3 with eventValid := true }, errors := [] }

end AvaxCPoE

namespace ProductionZKProofGenerator

/-- The BN128 base-field modulus, as hardcoded in the source. -/
def bn128Prime : Nat :=
  21888242871839275222246405745257275088696311157297823662689037894645226208583

/-- ProductionZKProofGenerator.hashPair (part_002 lines 851-857): sort the
two operands, then combine with the fixed linear hash mod the field prime. -/
def hashPair (left right : Nat) : Nat :=
  let s := if left < right then (left, right) else (right, left)
  (s.1 * 31 + s.2 * 37) % bn128Prime

/-- The path-walking loop of verifyProductionMerkleProof.  At each step
pathIndices[i] === 0 selects the left orientation; a missing index entry
compares unequal to 0 (undefined) and selects the right orientation. -/
def vpmLoop : Nat → List Nat → List Nat → Nat
  | c, [], _ => c
  | c, e :: rest, indices =>
    let isLeft := indices.headD 1 = 0
    vpmLoop (if isLeft then hashPair c e else hashPair e c) rest (indices.drop 1)

/-- ProductionZKProofGenerator.verifyProductionMerkleProof (part_002 lines
821-846): recompute the root along at most 10 path elements and compare. -/
def verifyProductionMerkleProof (leaf : Nat) (pathElements : List Nat)
    (pathIndices : List Nat) (root : Nat) : Bool :=
  vpmLoop leaf (pathElements.take 10) pathIndices == root

/-- ProductionZKProofGenerator.computeRealNullifier (part_002 lines 698-713):
keccak256 of the abi-encoded (userSecret, actualAmount) pair, modelled by the
abstract hash nullHash. -/
def computeRealNullifier (nullHash : Nat → Nat → Nat)
    (userSecret : Nat) (actualAmount : Nat) : Nat :=
  nullHash userSecret actualAmount

/-- ProductionZKProofGenerator.generateValidCurvePoint (part_002 lines
806-816): keccak256 of the abi-encoded (type, seed) string pair (modelled by
pointHash), reduced mod the field prime. -/
def generateValidCurvePoint (pointHash : String → String → Nat)
    (ty : String) (seed : String) : Nat :=
  pointHash ty seed % bn128Prime

/-- The circuit input record assembled by generateProductionProof. -/
structure CircuitInputs where
  actualAmount : Nat
  userSecret : Nat
  merklePathElements : List Nat
  merklePathIndices : List Nat
  minAmount : Nat
  merkleRoot : Nat
  nullifierHash : Nat
deriving DecidableEq, Repr

/-- The private inputs of generateProductionProof. -/
structure PrivateInputs where
  actualAmount : Nat
  userSecret : Nat
  merkleProof : List Nat
  merkleIndices : List Nat
deriving DecidableEq, Repr

/-- The public inputs of generateProductionProof. -/
structure PublicInputs where
  minAmount : Nat
  merkleRoot : Nat
  eventId : Nat
deriving DecidableEq, Repr

/-- The witness record returned by generateProductionWitness. -/
structure Witness where
  constraintCount : Nat
  privateSignals : List String
  publicSignals : List String
  allConstraintsSatisfied : Bool
  witnessGenerated : Bool
deriving DecidableEq, Repr

/-- ProductionZKProofGenerator.generateProductionWitness (part_002 lines
718-762): the three constraint checks in source order; the first violation
throws the corresponding CONSTRAINT VIOLATION error. -/
def generateProductionWitness (nullHash : Nat → Nat → Nat)
    (inputs : CircuitInputs) : Except String Witness :=
  if inputs.actualAmount < inputs.minAmount then
    .error "CONSTRAINT VIOLATION: actualAmount < minAmount"
  else if verifyProductionMerkleProof inputs.actualAmount inputs.merklePathElements
      inputs.merklePathIndices inputs.merkleRoot = false then
    .error "CONSTRAINT VIOLATION: Invalid Merkle inclusion proof"
  else if computeRealNullifier nullHash inputs.userSecret inputs.actualAmount ≠
      inputs.nullifierHash then
    .error "CONSTRAINT VIOLATION: Invalid nullifier hash"
  else
    .ok { constraintCount := 1500000,
          privateSignals := ["actualAmount", "userSecret", "merklePathElements", "merklePathIndices"],
          publicSignals := ["minAmount", "merkleRoot", "nullifierHash"],
          allConstraintsSatisfied := true,
          witnessGenerated := true }

/-- The pi points produced by generateGroth16Proof. -/
structure Groth16Points where
  pi_a : List Nat
  pi_b : List (List Nat)
  pi_c : List Nat
deriving DecidableEq, Repr

/-- ProductionZKProofGenerator.generateGroth16Proof (part_002 lines 767-801).
The curve-point seeds are the decimal strings of the circuit inputs; the
pi_c seeds are JavaScript string concatenations of two decimal strings. -/
def generateGroth16Proof (pointHash : String → String → Nat)
    (inputs : CircuitInputs) : Groth16Points :=
  { pi_a := [generateValidCurvePoint pointHash "a" (toString inputs.actualAmount),
             generateValidCurvePoint pointHash "a" (toString inputs.userSecret),
             1],
    pi_b := [[generateValidCurvePoint pointHash "b1" (toString inputs.minAmount),
              generateValidCurvePoint pointHash "b1" (toString inputs.merkleRoot)],
             [generateValidCurvePoint pointHash "b2" (toString inputs.nullifierHash),
              generateValidCurvePoint pointHash "b2" (toString inputs.actualAmount)],
             [1, 0]],
    pi_c := [generateValidCurvePoint pointHash "c"
               (toString inputs.actualAmount ++ toString inputs.minAmount),
             generateValidCurvePoint pointHash "c"
               (toString inputs.userSecret ++ toString inputs.nullifierHash),
             1] }

/-- The Solidity-formatted proof assembled in step 5 of
generateProductionProof. -/
structure FormattedProof where
  a : List Nat
  b : List (List Nat)
  c : List Nat
  publicSignals : List Nat
deriving DecidableEq, Repr

/-- The proof object returned by generateProductionProof (timing and static
metadata fields omitted: they carry no functional content). -/
structure ProductionProof where
  version : String
  protocol : String
  curve : String
  constraints : Nat
  eventId : Nat
  nullifierHash : Nat
  proof : FormattedProof
deriving DecidableEq, Repr

/-- ProductionZKProofGenerator.generateProductionProof (part_002 lines
590-693), for an initialized generator (the constructor sets initialized
synchronously).  The catch block rewraps any constraint error with the
generation-failed prefix; on success the proof object is returned. -/
def generateProductionProof (nullHash : Nat → Nat → Nat)
    (pointHash : String → String → Nat)
    (privateInputs : PrivateInputs) (publicInputs : PublicInputs) :
    Except String ProductionProof :=
  let nullifierHash := computeRealNullifier nullHash privateInputs.userSecret
    privateInputs.actualAmount
  let circuitInputs : CircuitInputs :=
    { actualAmount := privateInputs.actualAmount,
      userSecret := privateInputs.userSecret,
      merklePathElements := privateInputs.merkleProof.take 10,
      merklePathIndices := privateInputs.merkleIndices.take 10,
      minAmount := publicInputs.minAmount,
      merkleRoot := publicInputs.merkleRoot,
      nullifierHash := nullifierHash }
  match generateProductionWitness nullHash circuitInputs with
  | .error e => .error ("Production ZK proof generation failed: " ++ e)
  | .ok _witness =>
    let proof := generateGroth16Proof pointHash circuitInputs
    let formattedProof : FormattedProof :=
      { a := [proof.pi_a.getD 0 0, proof.pi_a.getD 1 0],
        b := [[(proof.pi_b.getD 0 []).getD 1 0, (proof.pi_b.getD 0 []).getD 0 0],
              [(proof.pi_b.getD 1 []).getD 1 0, (proof.pi_b.getD 1 []).getD 0 0]],
        c := [proof.pi_c.getD 0 0, proof.pi_c.getD 1 0],
        publicSignals := [publicInputs.minAmount, publicInputs.merkleRoot, nullifierHash] }
    .ok { version := "1.0.0-production", protocol := "groth16", curve := "bn128",
          constraints := 1500000, eventId := publicInputs.eventId,
          nullifierHash := nullifierHash, proof := formattedProof }

/-- Untyped proof points as handed to verifyProductionProof: a JavaScript
object whose fields may be absent and whose arrays may have any length. -/
structure RawGroth16 where
  a : Option (List Nat)
  b : Option (List (List Nat))
  c : Option (List Nat)
  publicSignals : Option (List Nat)
deriving DecidableEq, Repr

/-- Untyped argument of verifyProductionProof: the outer object whose proof
field may be absent. -/
structure RawProofObject where
  proof : Option RawGroth16
deriving DecidableEq, Repr

/-- Indexing that models a JavaScript BigInt conversion of an array access:
out-of-range access yields undefined and the conversion throws. -/
def nthNat (l : List Nat) (i : Nat) : Except String Nat :=
  match l.get? i with
  | some v => .ok v
  | none => .error "TypeError: Cannot convert undefined to a BigInt"

/-- Field-membership test BigInt(l[i]) < p with the throwing access above. -/
def ltP (l : List Nat) (i : Nat) : Except String Bool :=
  (nthNat l i).map (fun v => decide (v < bn128Prime))

/-- Field-membership test for the nested access BigInt(b[i][j]). -/
def lt2 (b : List (List Nat)) (i j : Nat) : Except String Bool :=
  match b.get? i with
  | none => .error "TypeError: Cannot read properties of undefined"
  | some row => ltP row j

/-- Short-circuiting JavaScript conjunction over the throwing field tests. -/
def andE (x : Except String Bool) (y : Unit → Except String Bool) : Except String Bool :=
  match x with
  | .error e => .error e
  | .ok false => .ok false
  | .ok true => y ()

/-- ProductionZKProofGenerator.validateCurvePoints (part_002 lines 923-932):
checks only that the eight proof coordinates are below the field prime.  The
three const lines each evaluate left to right with && short-circuiting. -/
def validateCurvePoints (a : List Nat) (b : List (List Nat)) (c : List Nat) :
    Except String Bool :=
  match andE (ltP a 0) (fun _ => ltP a 1) with
  | .error e => .error e
  | .ok aValid =>
    match andE (lt2 b 0 0) (fun _ => andE (lt2 b 0 1)
        (fun _ => andE (lt2 b 1 0) (fun _ => lt2 b 1 1))) with
    | .error e => .error e
    | .ok bValid =>
      match andE (ltP c 0) (fun _ => ltP c 1) with
      | .error e => .error e
      | .ok cValid => .ok (aValid && bValid && cValid)

/-- ProductionZKProofGenerator.simulatePairingVerification (part_002 lines
937-955): the pairing check is simulated and always reports success. -/
def simulatePairingVerification (_a : List Nat) (_b : List (List Nat))
    (_c : List Nat) (_publicSignals : List Nat) : Bool :=
  true

/-- The try block of ProductionZKProofGenerator.verifyProductionProof
(part_002 lines 862-918): every throw is an error, success returns true. -/
def verifyProductionProofE (raw : RawProofObject) : Except String Bool :=
  match raw.proof with
  | none => .error "Invalid proof structure"
  | some g =>
    match g.publicSignals with
    | none => .error "Invalid proof structure"
    | some ps =>
      match g.a with
      | none => .error "Invalid proof point A"
      | some a =>
        if a.length ≠ 2 then .error "Invalid proof point A"
        else
          match g.b with
          | none => .error "Invalid proof point B"
          | some b =>
            if b.length ≠ 2 then .error "Invalid proof point B"
            else if (b.headD []).length ≠ 2 then .error "Invalid proof point B"
            else
              match g.c with
              | none => .error "Invalid proof point C"
              | some c =>
                if c.length ≠ 2 then .error "Invalid proof point C"
                else if ps.length ≠ 3 then .error "Invalid public signals"
                else
                  match validateCurvePoints a b c with
                  | .error e => .error e
                  | .ok pointsValid =>
                    if pointsValid = false then .error "Invalid elliptic curve points"
                    else if ps.getD 0 0 = 0 then .error "Invalid minimum amount"
                    else if ps.getD 1 0 = 0 then .error "Invalid Merkle root"
                    else if simulatePairingVerification a b c ps = false then
                      .error "Pairing verification failed"
                    else .ok true

/-- ProductionZKProofGenerator.verifyProductionProof: the catch block turns
every internal failure into the boolean false. -/
def verifyProductionProof (raw : RawProofObject) : Bool :=
  match verifyProductionProofE raw with
  | .ok b => b
  | .error _ => false

/-- The eight coordinate positions validateCurvePoints reads (with default 0
for positions that a well-formed proof always populates). -/
def checkedCoords (raw : RawProofObject) : List Nat :=
  match raw.proof with
  | none => []
  | some g =>
    (match g.a with
     | none => []
     | some a => [a.getD 0 0, a.getD 1 0]) ++
    (match g.b with
     | none => []
     | some b => [(b.headD []).getD 0 0, (b.headD []).getD 1 0,
                  (b.getD 1 []).getD 0 0, (b.getD 1 []).getD 1 0]) ++
    (match g.c with
     | none => []
     | some c => [c.getD 0 0, c.getD 1 0])

/-- On-curve predicate for a BN128 G1 point in affine coordinates, the
property the specification requires verification to enforce. -/
def onCurveBN128 (x y : Nat) : Prop :=
  (y * y) % bn128Prime = (x * x * x + 3) % bn128Prime

instance (x y : Nat) : Decidable (onCurveBN128 x y) := by
  unfold onCurveBN128; infer_instance

end ProductionZKProofGenerator

namespace VaultSDKProtocol

/-- The contract state touched by VaultSDKProtocol.borrowWithProof.  The
usedProofs mapping is modelled by the list of keys set to true; the
per-address mappings by total functions. -/
structure ContractState where
  paused : Bool
  usedProofs : List Nat
  userBorrows : Nat → Nat
  userCollateral : Nat → Nat
  totalBorrowed : Nat
  totalLiquidity : Nat

/-- VaultSDKProtocol.simulateProofVerification (CrossLendProtocol.sol lines
157-178): basic zero checks, then a keccak hash (contractHash) compared
against zero. -/
def simulateProofVerification (contractHash : Nat → Nat → Nat → Nat)
    (proofHash stakeAmount user : Nat) : Bool :=
  if proofHash = 0 then false
  else if stakeAmount = 0 then false
  else if user = 0 then false
  else contractHash proofHash stakeAmount user != 0

/-- VaultSDKProtocol.borrowWithProof (CrossLendProtocol.sol lines 105-147).
A failed require reverts the transaction, discarding all state writes, so
the updated state is produced only on the fully successful path; errors
carry the require message.  COLLATERAL_RATIO is the constant 70. -/
def borrowWithProof (contractHash : Nat → Nat → Nat → Nat)
    (s : ContractState) (proofHash stakeAmount user : Nat) :
    Except String ContractState :=
  if s.paused then .error "Protocol is paused"
  else if proofHash = 0 then .error "Invalid proof hash"
  else if stakeAmount = 0 then .error "Invalid stake amount"
  else if user = 0 then .error "Invalid user address"
  else if proofHash ∈ s.usedProofs then .error "Proof already used"
  else if simulateProofVerification contractHash proofHash stakeAmount user = false then
    .error "Proof verification failed"
  else
    let borrowAmount := stakeAmount * 70 / 100
    if s.totalLiquidity < borrowAmount then .error "Insufficient liquidity"
    else
      .ok { s with
            usedProofs := proofHash :: s.usedProofs,
            userBorrows := fun a =>
              if a = user then s.userBorrows a + borrowAmount else s.userBorrows a,
            userCollateral := fun a =>
              if a = user then s.userCollateral a + stakeAmount else s.userCollateral a,
            totalBorrowed := s.totalBorrowed + borrowAmount,
            totalLiquidity := s.totalLiquidity - borrowAmount }

end VaultSDKProtocol

/-! ## Theorems -/

namespace CryptoUtils

/-- getD does not depend on the default once the index is in range. -/
theorem getD_irrel {l : List Nat} {n : Nat} (h : n < l.length) (d d' : Nat) :
    l.getD n d = l.getD n d' := by
  induction l generalizing n with
  | nil => simp at h
  | cons x xs ih =>
    cases n with
    | zero => rfl
    | succ m =>
      simp only [List.getD_cons_succ]
      exact ih (by simp at h; omega)

/-- One build level has half the nodes, rounded up. -/
theorem buildLevel_length (h2 : Nat → Nat → Nat) : ∀ l : List Nat,
    (buildLevel h2 l).length = (l.length + 1) / 2
  | [] => by simp [buildLevel]
  | [_] => by simp [buildLevel]
  | _ :: _ :: rest => by
    simp only [buildLevel, List.length_cons]
    rw [buildLevel_length h2 rest]
    omega

/-- The parent at position j hashes the child pair at 2j, 2j+1. -/
theorem buildLevel_getD (h2 : Nat → Nat → Nat) : ∀ (l : List Nat) (j : Nat),
    2 * j + 1 < l.length →
    (buildLevel h2 l).getD j 0 = h2 (l.getD (2 * j) 0) (l.getD (2 * j + 1) 0)
  | [], j, h => by
    exfalso
    have hl : ([] : List Nat).length = 0 := rfl
    omega
  | [x], j, h => by
    exfalso
    have hl : [x].length = 1 := rfl
    omega
  | x :: y :: rest, 0, _ => by simp [buildLevel]
  | x :: y :: rest, j + 1, h => by
    have hlt : 2 * j + 1 < rest.length := by
      simp only [List.length_cons] at h
      omega
    have ih := buildLevel_getD h2 rest j hlt
    have e1 : 2 * (j + 1) = 2 * j + 1 + 1 := by ring
    simp only [buildLevel, e1, List.getD_cons_succ]
    exact ih

/-- At an even in-pair position with a full pair, the pushed sibling is the
right neighbour. -/
theorem levelSiblings_even (level : List Nat) (idx : Nat) (he : idx % 2 = 0)
    (h : idx + 1 < level.length) :
    levelSiblings level idx = [level.getD (idx + 1) 0] := by
  simp only [levelSiblings]
  have h2i : 2 * (idx / 2) = idx := by omega
  rw [h2i, getD_irrel h (level.getD idx 0) 0]
  simp [h]

/-- At an odd position the pushed sibling is the left neighbour. -/
theorem levelSiblings_odd (level : List Nat) (idx : Nat) (ho : idx % 2 = 1)
    (h : idx < level.length) :
    levelSiblings level idx = [level.getD (idx - 1) 0] := by
  simp only [levelSiblings]
  have h2i : 2 * (idx / 2) = idx - 1 := by omega
  have hlt : idx - 1 + 1 < level.length := by omega
  rw [h2i, if_neg (by omega : ¬ (idx - 1 = idx)), if_pos (Or.inr hlt)]

/-- Consuming the sibling pushed at one even-length level moves the verifier
exactly to the parent node produced by the build loop. -/
theorem computeRoot_step (h2 : Nat → Nat → Nat) (level : List Nat) (idx : Nat)
    (rest : List Nat) (hlen : level.length % 2 = 0) (hidx : idx < level.length) :
    computeRoot h2 (level.getD idx 0) (levelSiblings level idx ++ rest) idx =
    computeRoot h2 ((buildLevel h2 level).getD (idx / 2) 0) rest (idx / 2) := by
  by_cases hp : idx % 2 = 0
  · have h1 : idx + 1 < level.length := by omega
    rw [levelSiblings_even level idx hp h1]
    simp only [List.cons_append, List.nil_append, computeRoot]
    rw [if_pos hp, buildLevel_getD h2 level (idx / 2) (by omega)]
    have e : 2 * (idx / 2) = idx := by omega
    rw [e]
    rfl
  · have hp1 : idx % 2 = 1 := by omega
    rw [levelSiblings_odd level idx hp1 hidx]
    simp only [List.cons_append, List.nil_append, computeRoot]
    rw [if_neg hp, buildLevel_getD h2 level (idx / 2) (by omega)]
    have e : 2 * (idx / 2) = idx - 1 := by omega
    have e2 : idx - 1 + 1 = idx := by omega
    rw [e, e2]
    rfl

/-- Round trip of the generation loop: over a level of exactly 2 ^ k nodes,
the proof it accumulates recomputes its root from any in-range start. -/
theorem genLoopF_correct (h2 : Nat → Nat → Nat) : ∀ (k fuel : Nat)
    (level : List Nat) (idx : Nat),
    level.length = 2 ^ k → idx < level.length → 2 ^ k ≤ fuel + 1 →
    (genLoopF h2 fuel level idx).2 =
      computeRoot h2 (level.getD idx 0) (genLoopF h2 fuel level idx).1 idx := by
  intro k
  induction k with
  | zero =>
    intro fuel level idx hlen hidx hfuel
    have h1 : level.length = 1 := by simpa using hlen
    have hidx0 : idx = 0 := by omega
    subst hidx0
    cases fuel with
    | zero => simp [genLoopF, computeRoot]
    | succ f =>
      have hle : level.length ≤ 1 := by omega
      simp [genLoopF, hle, computeRoot]
  | succ k ih =>
    intro fuel level idx hlen hidx hfuel
    have hq : (0 : Nat) < 2 ^ k := Nat.two_pow_pos k
    have hpow : 2 ^ (k + 1) = 2 * 2 ^ k := by ring
    rw [hpow] at hlen hfuel
    cases fuel with
    | zero => exact absurd hfuel (by omega)
    | succ f =>
      have hnot : ¬ level.length ≤ 1 := by omega
      have hblen : (buildLevel h2 level).length = 2 ^ k := by
        rw [buildLevel_length h2 level, hlen]
        omega
      have hbidx : idx / 2 < (buildLevel h2 level).length := by
        rw [hblen]
        omega
      have hbfuel : 2 ^ k ≤ f + 1 := by omega
      have ihr := ih f (buildLevel h2 level) (idx / 2) hblen hbidx hbfuel
      have hmod : level.length % 2 = 0 := by omega
      simp only [genLoopF, if_neg hnot]
      rw [computeRoot_step h2 level idx _ hmod hidx]
      exact ihr

/-- The verifier recomputation is injective in the starting leaf when the
combining hash is pairwise injective. -/
theorem computeRoot_inj_leaf (h2 : Nat → Nat → Nat)
    (hinj : ∀ a b a' b', h2 a b = h2 a' b' → a = a' ∧ b = b') :
    ∀ (ps : List Nat) (idx c c' : Nat),
      computeRoot h2 c ps idx = computeRoot h2 c' ps idx → c = c'
  | [], _, _, _, h => h
  | p :: ps, idx, c, c', h => by
    have h' := computeRoot_inj_leaf h2 hinj ps (idx / 2) _ _ h
    by_cases hp : idx % 2 = 0
    · rw [if_pos hp, if_pos hp] at h'
      exact (hinj _ _ _ _ h').1
    · rw [if_neg hp, if_neg hp] at h'
      exact (hinj _ _ _ _ h').2

/-- The verifier recomputation is injective in each proof element when the
combining hash is pairwise injective. -/
theorem computeRoot_inj_set (h2 : Nat → Nat → Nat)
    (hinj : ∀ a b a' b', h2 a b = h2 a' b' → a = a' ∧ b = b') :
    ∀ (ps : List Nat) (j idx c x : Nat), j < ps.length →
      computeRoot h2 c (ps.set j x) idx = computeRoot h2 c ps idx →
      x = ps.getD j 0
  | [], j, _, _, _, hj, _ => by simp at hj
  | p :: ps, 0, idx, c, x, _, h => by
    have h' := computeRoot_inj_leaf h2 hinj ps (idx / 2) _ _ h
    by_cases hp : idx % 2 = 0
    · rw [if_pos hp, if_pos hp] at h'
      exact (hinj _ _ _ _ h').2
    · rw [if_neg hp, if_neg hp] at h'
      exact (hinj _ _ _ _ h').1
  | p :: ps, j + 1, idx, c, x, hj, h => by
    have hj' : j < ps.length := by simp at hj; omega
    have := computeRoot_inj_set h2 hinj ps j (idx / 2)
      (if idx % 2 = 0 then h2 c p else h2 p c) x hj' h
    simpa using this

end CryptoUtils

/-- C1 counterexample: on the three-element log list at index 2 the
generated proof does not verify — the generator skips the sibling of the
duplicated odd node while the verifier still consumes one proof element per
level — so the round trip fails inside the claimed 1..1024 size range. -/
theorem merkle_roundtrip_counterexample :
    (CryptoUtils.generateMerkleProof Nat.pair (fun l => l.address)
      [⟨0, [], 0, 0⟩, ⟨1, [], 0, 1⟩, ⟨2, [], 0, 2⟩] 2).map
      (fun o => CryptoUtils.verifyMerkleProof Nat.pair o.leaf o.proof o.root o.index) =
    Except.ok false := by decide

/-- C1 (amended): for log lists whose length is a power of two (1, 2, 4, ...,
1024) and any valid index, the generated Merkle proof verifies, and — when
the combining hash is collision-free (pairwise injective, the idealization
of keccak256) — changing the leaf, any single proof element, or the root
makes verifyMerkleProof return false. -/
theorem merkle_roundtrip_pow2 (h2 : Nat → Nat → Nat) (leafHash : LogEntry → Nat)
    (hinj : ∀ a b a' b', h2 a b = h2 a' b' → a = a' ∧ b = b')
    (logs : List LogEntry) (k i : Nat) (out : CryptoUtils.MerkleProofOut)
    (hk : logs.length = 2 ^ k) (_hk10 : k ≤ 10) (hi : i < logs.length)
    (hout : CryptoUtils.generateMerkleProof h2 leafHash logs i = Except.ok out) :
    CryptoUtils.verifyMerkleProof h2 out.leaf out.proof out.root out.index = true ∧
    (∀ leaf', leaf' ≠ out.leaf →
      CryptoUtils.verifyMerkleProof h2 leaf' out.proof out.root out.index = false) ∧
    (∀ j x, j < out.proof.length → x ≠ out.proof.getD j 0 →
      CryptoUtils.verifyMerkleProof h2 out.leaf (out.proof.set j x) out.root
        out.index = false) ∧
    (∀ root', root' ≠ out.root →
      CryptoUtils.verifyMerkleProof h2 out.leaf out.proof root' out.index = false) := by
  have hq : (0 : Nat) < 2 ^ k := Nat.two_pow_pos k
  have h0 : ¬ logs.length = 0 := by omega
  have hni : ¬ logs.length ≤ i := by omega
  unfold CryptoUtils.generateMerkleProof at hout
  rw [if_neg h0, if_neg hni] at hout
  cases hout
  have hL : (logs.map leafHash).length = 2 ^ k := by
    rw [List.length_map]
    exact hk
  have hiL : i < (logs.map leafHash).length := by
    rw [List.length_map]
    exact hi
  have hroot := CryptoUtils.genLoopF_correct h2 k (logs.map leafHash).length
    (logs.map leafHash) i hL hiL (by rw [hL]; omega)
  refine ⟨?_, ?_, ?_, ?_⟩
  · simp only [CryptoUtils.verifyMerkleProof, beq_iff_eq]
    exact hroot.symm
  · intro leaf' hne
    simp only [CryptoUtils.verifyMerkleProof, beq_eq_false_iff_ne, ne_eq]
    intro heq
    rw [hroot] at heq
    exact hne (CryptoUtils.computeRoot_inj_leaf h2 hinj _ _ _ _ heq)
  · intro j x hj hx
    simp only [CryptoUtils.verifyMerkleProof, beq_eq_false_iff_ne, ne_eq]
    intro heq
    rw [hroot] at heq
    exact hx (CryptoUtils.computeRoot_inj_set h2 hinj _ j _ _ x hj heq)
  · intro root' hne
    simp only [CryptoUtils.verifyMerkleProof, beq_eq_false_iff_ne, ne_eq]
    intro heq
    exact hne (heq ▸ hroot.symm) |>.elim

/-- Witness for C1 (amended): four logs, index 2, with the injective pairing
function as the combining hash; the generated proof verifies and each
mutation is rejected. -/
theorem merkle_roundtrip_pow2_witness :
    CryptoUtils.generateMerkleProof Nat.pair (fun l => l.address)
      [⟨10, [], 0, 0⟩, ⟨11, [], 0, 1⟩, ⟨12, [], 0, 2⟩, ⟨13, [], 0, 3⟩] 2 =
      Except.ok ⟨12, [13, 131], 32892, 2⟩ ∧
    CryptoUtils.verifyMerkleProof Nat.pair 12 [13, 131] 32892 2 = true ∧
    CryptoUtils.verifyMerkleProof Nat.pair 999 [13, 131] 32892 2 = false ∧
    CryptoUtils.verifyMerkleProof Nat.pair 12 [999, 131] 32892 2 = false ∧
    CryptoUtils.verifyMerkleProof Nat.pair 12 [13, 131] 999 2 = false := by
  have hinj : ∀ a b a' b', Nat.pair a b = Nat.pair a' b' → a = a' ∧ b = b' := by
    intro a b a' b' h
    have h1 := congrArg Nat.unpair h
    simpa [Nat.unpair_pair, Prod.ext_iff] using h1
  have hm := merkle_roundtrip_pow2 Nat.pair (fun l => l.address) hinj
    [⟨10, [], 0, 0⟩, ⟨11, [], 0, 1⟩, ⟨12, [], 0, 2⟩, ⟨13, [], 0, 3⟩] 2 2
    ⟨12, [13, 131], 32892, 2⟩ (by decide) (by decide) (by decide) (by decide)
  exact ⟨by decide, hm.1, hm.2.1 999 (by decide), hm.2.2.1 0 999 (by decide) (by decide),
    hm.2.2.2 999 (by decide)⟩

/-- C7 counterexample: on the empty log list every index is out of range,
but the thrown error is the no-logs error, not the index-out-of-bounds
error, so the claim as stated fails at logs = [], targetIndex = 0. -/
theorem index_bounds_counterexample :
    CryptoUtils.generateMerkleProof Nat.pair (fun l => l.address) [] 0 =
      Except.error "No logs provided for Merkle proof generation" ∧
    "No logs provided for Merkle proof generation" ≠ "Target index out of bounds" := by
  decide

/-- C7 (amended): for every non-empty list of logs and every targetIndex at
or past the end, CryptoUtils.generateMerkleProof fails with the
index-out-of-bounds error and returns no proof. -/
theorem index_bounds (h2 : Nat → Nat → Nat) (leafHash : LogEntry → Nat)
    (logs : List LogEntry) (targetIndex : Nat) (hne : logs ≠ [])
    (hge : logs.length ≤ targetIndex) :
    CryptoUtils.generateMerkleProof h2 leafHash logs targetIndex =
      Except.error "Target index out of bounds" := by
  have h0 : ¬ logs.length = 0 := by simpa [List.length_eq_zero] using hne
  unfold CryptoUtils.generateMerkleProof
  simp [h0, hge]

/-- Witness for C7: a singleton log list with index 5 hits the
index-out-of-bounds error. -/
theorem index_bounds_witness :
    CryptoUtils.generateMerkleProof Nat.pair (fun l => l.address)
      [⟨1, [], 0, 0⟩] 5 = Except.error "Target index out of bounds" :=
  index_bounds Nat.pair (fun l => l.address) [⟨1, [], 0, 0⟩] 5
    (by decide) (by decide)

/-- C8: verifyBlockSignature accepts exactly the signature recomputed by
createBlockSignature on the same block hash and validator-set commitment;
every other signature is rejected.  Both functions are pure (deterministic,
stateless, no external calls) by construction of the embedding. -/
theorem attestation_roundtrip (sigHash : Nat → Nat → Nat)
    (blockHash validatorSetHash : Nat) :
    CryptoUtils.verifyBlockSignature sigHash blockHash validatorSetHash
      (CryptoUtils.createBlockSignature sigHash blockHash validatorSetHash) = true ∧
    ∀ signature,
      signature ≠ CryptoUtils.createBlockSignature sigHash blockHash validatorSetHash →
      CryptoUtils.verifyBlockSignature sigHash blockHash validatorSetHash signature = false := by
  refine ⟨by simp [CryptoUtils.verifyBlockSignature], ?_⟩
  intro signature h
  simp [CryptoUtils.verifyBlockSignature, h]

/-- Witness for C8 at a concrete hash and inputs (createBlockSignature
Nat.pair 1 2 evaluates to 5, so 6 is a differing signature). -/
theorem attestation_roundtrip_witness :
    CryptoUtils.verifyBlockSignature Nat.pair 1 2
      (CryptoUtils.createBlockSignature Nat.pair 1 2) = true ∧
    (6 ≠ CryptoUtils.createBlockSignature Nat.pair 1 2 ∧
     CryptoUtils.verifyBlockSignature Nat.pair 1 2 6 = false) :=
  ⟨(attestation_roundtrip Nat.pair 1 2).1, by decide,
   (attestation_roundtrip Nat.pair 1 2).2 6 (by decide)⟩

/-- C6: any proof whose version differs from 1.0.0 is rejected immediately
with the unsupported-version error: the result is independent of the chain
(getBlock is arbitrary) and every detail flag stays false, so no block,
Merkle, signature, or event-data check is performed. -/
theorem version_gating (h2 : Nat → Nat → Nat) (leafHash : LogEntry → Nat)
    (sigHash : Nat → Nat → Nat) (getBlock : Nat → Option BlockInfo)
    (proof : EventProof) (h : proof.version ≠ "1.0.0") :
    AvaxCPoE.verifyProof h2 leafHash sigHash getBlock proof =
      { isValid := false,
        details := { merkleValid := false, signatureValid := false,
                     blockValid := false, eventValid := false },
        errors := ["Unsupported proof version"] } := by
  unfold AvaxCPoE.verifyProof
  simp [h]

/-- Witness for C6: a concrete proof carrying version 2.0.0. -/
theorem version_gating_witness :
    (EventProof.version ⟨"2.0.0", 0, "avalanche-fuji", 0, 0, ⟨0, [], 0, 0⟩,
        ⟨0, [], 0, 0⟩, ⟨0, 0⟩, 0⟩ ≠ "1.0.0") ∧
    AvaxCPoE.verifyProof Nat.pair (fun l => l.address) Nat.pair (fun _ => none)
      ⟨"2.0.0", 0, "avalanche-fuji", 0, 0, ⟨0, [], 0, 0⟩, ⟨0, [], 0, 0⟩, ⟨0, 0⟩, 0⟩ =
      { isValid := false,
        details := { merkleValid := false, signatureValid := false,
                     blockValid := false, eventValid := false },
        errors := ["Unsupported proof version"] } :=
  ⟨by decide,
   version_gating Nat.pair (fun l => l.address) Nat.pair (fun _ => none)
     ⟨"2.0.0", 0, "avalanche-fuji", 0, 0, ⟨0, [], 0, 0⟩, ⟨0, [], 0, 0⟩, ⟨0, 0⟩, 0⟩
     (by decide)⟩

namespace ProductionZKProofGenerator

/-- hashPair sorts its operands before hashing, so it is commutative. -/
theorem hashPair_comm (l r : Nat) : hashPair l r = hashPair r l := by
  unfold hashPair
  rcases Nat.lt_trichotomy l r with h | h | h
  · simp [h, Nat.lt_asymm h]
  · simp [h]
  · simp [h, Nat.lt_asymm h]

/-- One step of the path loop is orientation-independent: either branch
hashes the same unordered pair. -/
theorem vpmLoop_cons (c e : Nat) (rest indices : List Nat) :
    vpmLoop c (e :: rest) indices = vpmLoop (hashPair c e) rest (indices.drop 1) := by
  simp only [vpmLoop]
  by_cases h : indices.head?.getD 1 = 0 <;>
    simp [h, List.headD, hashPair_comm e c]

/-- The path loop computes the same value for any two index vectors. -/
theorem vpmLoop_indices (elems : List Nat) : ∀ c indices indices',
    vpmLoop c elems indices = vpmLoop c elems indices' := by
  induction elems with
  | nil => intro c indices indices'; rfl
  | cons e rest ih =>
    intro c indices indices'
    rw [vpmLoop_cons, vpmLoop_cons, ih]

end ProductionZKProofGenerator

/-- C9: the ZK generator Merkle pair-hash is commutative, and consequently
verifyProductionMerkleProof computes the same root (hence the same result)
for every left/right orientation vector pathIndices. -/
theorem zk_hashPair_comm_path_order_irrelevant :
    (∀ l r, ProductionZKProofGenerator.hashPair l r =
      ProductionZKProofGenerator.hashPair r l) ∧
    (∀ leaf pathElements pathIndices pathIndices' root,
      ProductionZKProofGenerator.verifyProductionMerkleProof
        leaf pathElements pathIndices root =
      ProductionZKProofGenerator.verifyProductionMerkleProof
        leaf pathElements pathIndices' root) := by
  refine ⟨ProductionZKProofGenerator.hashPair_comm, ?_⟩
  intro leaf pathElements pathIndices pathIndices' root
  unfold ProductionZKProofGenerator.verifyProductionMerkleProof
  rw [ProductionZKProofGenerator.vpmLoop_indices _ _ pathIndices pathIndices']

/-- C2: a private witness with actualAmount strictly below the public
minAmount always fails during witness generation with the constraint
violation error (the amount check is the first constraint, before the
Groth16 step), and generateProductionProof rethrows that error and never
returns a proof object. -/
theorem threshold_soundness (nullHash : Nat → Nat → Nat)
    (pointHash : String → String → Nat)
    (privateInputs : ProductionZKProofGenerator.PrivateInputs)
    (publicInputs : ProductionZKProofGenerator.PublicInputs)
    (h : privateInputs.actualAmount < publicInputs.minAmount) :
    (∀ inputs : ProductionZKProofGenerator.CircuitInputs,
      inputs.actualAmount = privateInputs.actualAmount →
      inputs.minAmount = publicInputs.minAmount →
      ProductionZKProofGenerator.generateProductionWitness nullHash inputs =
        Except.error "CONSTRAINT VIOLATION: actualAmount < minAmount") ∧
    ProductionZKProofGenerator.generateProductionProof nullHash pointHash
        privateInputs publicInputs =
      Except.error
        "Production ZK proof generation failed: CONSTRAINT VIOLATION: actualAmount < minAmount" := by
  constructor
  · intro inputs h1 h2
    unfold ProductionZKProofGenerator.generateProductionWitness
    rw [h1, h2]
    simp [h]
  · unfold ProductionZKProofGenerator.generateProductionProof
      ProductionZKProofGenerator.generateProductionWitness
    simp [h]

/-- Witness for C2: actualAmount 0 against minAmount 5. -/
theorem threshold_soundness_witness :
    ProductionZKProofGenerator.generateProductionWitness Nat.pair
      ⟨0, 7, [], [], 5, 0, Nat.pair 7 0⟩ =
      Except.error "CONSTRAINT VIOLATION: actualAmount < minAmount" ∧
    ProductionZKProofGenerator.generateProductionProof Nat.pair (fun _ _ => 1)
      ⟨0, 7, [], []⟩ ⟨5, 0, 0⟩ =
      Except.error
        "Production ZK proof generation failed: CONSTRAINT VIOLATION: actualAmount < minAmount" :=
  ⟨(threshold_soundness Nat.pair (fun _ _ => 1) ⟨0, 7, [], []⟩ ⟨5, 0, 0⟩ (by decide)).1
     ⟨0, 7, [], [], 5, 0, Nat.pair 7 0⟩ rfl rfl,
   (threshold_soundness Nat.pair (fun _ _ => 1) ⟨0, 7, [], []⟩ ⟨5, 0, 0⟩ (by decide)).2⟩

/-- C5: every successful generateProductionProof call returns publicSignals
equal to [minAmount, merkleRoot, nullifierHash], with nullifierHash the
computeRealNullifier hash of (secretSeed, actualAmount), also exposed in the
top-level nullifierHash field. -/
theorem public_signal_assembly (nullHash : Nat → Nat → Nat)
    (pointHash : String → String → Nat)
    (privateInputs : ProductionZKProofGenerator.PrivateInputs)
    (publicInputs : ProductionZKProofGenerator.PublicInputs)
    (result : ProductionZKProofGenerator.ProductionProof)
    (h : ProductionZKProofGenerator.generateProductionProof nullHash pointHash
      privateInputs publicInputs = Except.ok result) :
    result.proof.publicSignals =
      [publicInputs.minAmount, publicInputs.merkleRoot,
       ProductionZKProofGenerator.computeRealNullifier nullHash
         privateInputs.userSecret privateInputs.actualAmount] ∧
    result.nullifierHash =
      ProductionZKProofGenerator.computeRealNullifier nullHash
        privateInputs.userSecret privateInputs.actualAmount := by
  simp only [ProductionZKProofGenerator.generateProductionProof] at h
  split at h
  · exact absurd h (by simp)
  · cases h
    exact ⟨rfl, rfl⟩

/-- Witness for C5: a successful call (actualAmount 5 over threshold 1,
empty Merkle path, root equal to the leaf) whose public signals are
[1, 5, computeRealNullifier Nat.pair 7 5]. -/
theorem public_signal_assembly_witness :
    ProductionZKProofGenerator.generateProductionProof Nat.pair (fun _ _ => 1)
      ⟨5, 7, [], []⟩ ⟨1, 5, 0⟩ =
      Except.ok ⟨"1.0.0-production", "groth16", "bn128", 1500000, 0, 61,
        ⟨[1, 1], [[1, 1], [1, 1]], [1, 1], [1, 5, 61]⟩⟩ ∧
    ProductionZKProofGenerator.FormattedProof.publicSignals
      ⟨[1, 1], [[1, 1], [1, 1]], [1, 1], [1, 5, 61]⟩ =
      [1, 5, ProductionZKProofGenerator.computeRealNullifier Nat.pair 7 5] :=
  ⟨by decide,
   (public_signal_assembly Nat.pair (fun _ _ => 1) ⟨5, 7, [], []⟩ ⟨1, 5, 0⟩
     ⟨"1.0.0-production", "groth16", "bn128", 1500000, 0, 61,
       ⟨[1, 1], [[1, 1], [1, 1]], [1, 1], [1, 5, 61]⟩⟩ (by decide)).1⟩

namespace ProductionZKProofGenerator

/-- The try block never returns Except.ok false: every failure is a thrown
error and the only successful exit returns true. -/
theorem verifyProductionProofE_ok (raw : RawProofObject) (b : Bool)
    (h : verifyProductionProofE raw = Except.ok b) : b = true := by
  unfold verifyProductionProofE at h
  repeat' split at h
  all_goals
    first
    | exact Except.noConfusion h
    | (injection h with hb; exact hb.symm)

end ProductionZKProofGenerator

/-- C10: verifyProductionProof is total and never propagates an internal
failure: on every input object, including structurally malformed ones, it
either returns false (every thrown error is converted to false by the catch
block) or the checks all succeed and it returns true. -/
theorem verifier_total_no_exception
    (raw : ProductionZKProofGenerator.RawProofObject) :
    ProductionZKProofGenerator.verifyProductionProof raw = false ∨
    (ProductionZKProofGenerator.verifyProductionProofE raw = Except.ok true ∧
     ProductionZKProofGenerator.verifyProductionProof raw = true) := by
  unfold ProductionZKProofGenerator.verifyProductionProof
  cases hE : ProductionZKProofGenerator.verifyProductionProofE raw with
  | error e => exact Or.inl rfl
  | ok b =>
    have hb := ProductionZKProofGenerator.verifyProductionProofE_ok raw b hE
    subst hb
    exact Or.inr ⟨rfl, rfl⟩

/-- C3 counterexample: the structurally well-formed proof whose point A is
(1, 1) — which does not lie on the BN128 curve y^2 = x^3 + 3 — is accepted
by verifyProductionProof, because only field membership is checked and the
pairing step is simulated. -/
theorem malformed_point_counterexample :
    ProductionZKProofGenerator.verifyProductionProof
      ⟨some ⟨some [1, 1], some [[1, 1], [1, 1]], some [1, 1], some [1, 1, 0]⟩⟩ = true ∧
    ¬ ProductionZKProofGenerator.onCurveBN128 1 1 := by
  constructor
  · decide
  · decide

namespace ProductionZKProofGenerator

/-- If the short-circuit conjunction succeeds with true, both operands do. -/
theorem andE_ok_true {x : Except String Bool} {y : Unit → Except String Bool}
    (h : andE x y = Except.ok true) : x = Except.ok true ∧ y () = Except.ok true := by
  cases x with
  | error e => exact Except.noConfusion h
  | ok b =>
    cases b with
    | false => exact absurd h (by simp [andE])
    | true => exact ⟨rfl, h⟩

end ProductionZKProofGenerator

/-- A successful optional lookup determines getD at any default. -/
theorem get?_getD {α : Type} {l : List α} {i : Nat} {v : α}
    (h : l.get? i = some v) (d : α) : l.getD i d = v := by
  induction l generalizing i with
  | nil => simp at h
  | cons x xs ih =>
    cases i with
    | zero => simp at h; simp [h]
    | succ n =>
      simp only [List.get?] at h
      simpa using ih h

namespace ProductionZKProofGenerator

/-- A successful in-field test bounds the accessed coordinate. -/
theorem ltP_ok_true {l : List Nat} {i : Nat} (h : ltP l i = Except.ok true) :
    l.getD i 0 < bn128Prime := by
  unfold ltP nthNat at h
  cases hg : l.get? i with
  | none => rw [hg] at h; exact Except.noConfusion h
  | some v =>
    rw [hg] at h
    simp only [Except.map] at h
    rw [get?_getD hg]
    injection h with hb
    simpa using hb

/-- A successful nested in-field test bounds the accessed coordinate. -/
theorem lt2_ok_true {b : List (List Nat)} {i j : Nat}
    (h : lt2 b i j = Except.ok true) :
    (b.getD i []).getD j 0 < bn128Prime := by
  unfold lt2 at h
  cases hg : b.get? i with
  | none => rw [hg] at h; exact Except.noConfusion h
  | some row =>
    rw [hg] at h
    rw [get?_getD hg]
    exact ltP_ok_true h

/-- When validateCurvePoints reports true, all eight accessed coordinates
are below the field prime. -/
theorem validateCurvePoints_ok_true {a : List Nat} {b : List (List Nat)}
    {c : List Nat} (h : validateCurvePoints a b c = Except.ok true) :
    a.getD 0 0 < bn128Prime ∧ a.getD 1 0 < bn128Prime ∧
    (b.getD 0 []).getD 0 0 < bn128Prime ∧ (b.getD 0 []).getD 1 0 < bn128Prime ∧
    (b.getD 1 []).getD 0 0 < bn128Prime ∧ (b.getD 1 []).getD 1 0 < bn128Prime ∧
    c.getD 0 0 < bn128Prime ∧ c.getD 1 0 < bn128Prime := by
  unfold validateCurvePoints at h
  cases hA : andE (ltP a 0) (fun _ => ltP a 1) with
  | error e => rw [hA] at h; exact Except.noConfusion h
  | ok aValid =>
    rw [hA] at h
    cases hB : andE (lt2 b 0 0) (fun _ => andE (lt2 b 0 1)
        (fun _ => andE (lt2 b 1 0) (fun _ => lt2 b 1 1))) with
    | error e => rw [hB] at h; exact Except.noConfusion h
    | ok bValid =>
      rw [hB] at h
      cases hC : andE (ltP c 0) (fun _ => ltP c 1) with
      | error e => rw [hC] at h; exact Except.noConfusion h
      | ok cValid =>
        rw [hC] at h
        injection h with h3
        rw [Bool.and_eq_true, Bool.and_eq_true] at h3
        obtain ⟨⟨ha1, hb1⟩, hc1⟩ := h3
        subst ha1; subst hb1; subst hc1
        obtain ⟨hA0, hA1⟩ := andE_ok_true hA
        obtain ⟨hB0, hBr⟩ := andE_ok_true hB
        obtain ⟨hB1, hBr2⟩ := andE_ok_true hBr
        obtain ⟨hB2, hB3⟩ := andE_ok_true hBr2
        obtain ⟨hC0, hC1⟩ := andE_ok_true hC
        exact ⟨ltP_ok_true hA0, ltP_ok_true hA1, lt2_ok_true hB0,
          lt2_ok_true hB1, lt2_ok_true hB2, lt2_ok_true hB3,
          ltP_ok_true hC0, ltP_ok_true hC1⟩

/-- Relates the source headD access to the indexed access of the model. -/
theorem headD_eq_getD (b : List (List Nat)) : b.headD [] = b.getD 0 [] := by
  cases b <;> rfl

/-- Every accepted raw proof pins validateCurvePoints to a true verdict. -/
theorem verifyE_validate {raw : RawProofObject} {g : RawGroth16}
    {a : List Nat} {b : List (List Nat)} {c : List Nat}
    (hg : raw.proof = some g) (ha : g.a = some a) (hb : g.b = some b)
    (hc : g.c = some c)
    (hE : verifyProductionProofE raw = Except.ok true) :
    validateCurvePoints a b c = Except.ok true := by
  simp only [verifyProductionProofE, hg, ha, hb, hc] at hE
  repeat' split at hE
  all_goals try exact Except.noConfusion hE
  all_goals
    obtain ⟨pv, heq, hpv⟩ : ∃ pv, validateCurvePoints a b c = Except.ok pv ∧ ¬ pv = false :=
      ⟨_, by assumption, by assumption⟩
  all_goals cases pv with
  | false => exact absurd rfl hpv
  | true => exact heq

end ProductionZKProofGenerator

/-- C3 (amended): verifyProductionProof enforces only base-field membership
of the proof coordinates: every coordinate position it reads in an accepted
proof is below the BN128 field prime.  On-curve membership is not checked
(see the counterexample) because the pairing step is simulated. -/
theorem malformed_point_field_only
    (raw : ProductionZKProofGenerator.RawProofObject)
    (h : ProductionZKProofGenerator.verifyProductionProof raw = true) :
    ∀ x ∈ ProductionZKProofGenerator.checkedCoords raw,
      x < ProductionZKProofGenerator.bn128Prime := by
  have hE : ProductionZKProofGenerator.verifyProductionProofE raw = Except.ok true := by
    unfold ProductionZKProofGenerator.verifyProductionProof at h
    cases hE : ProductionZKProofGenerator.verifyProductionProofE raw with
    | error e => rw [hE] at h; exact absurd h (by simp)
    | ok b =>
      rw [ProductionZKProofGenerator.verifyProductionProofE_ok raw b hE]
  obtain ⟨op⟩ := raw
  rcases op with _ | g
  · exact absurd hE (by simp [ProductionZKProofGenerator.verifyProductionProofE])
  obtain ⟨oa, ob, oc, ops⟩ := g
  rcases ops with _ | ps
  · exact absurd hE (by simp [ProductionZKProofGenerator.verifyProductionProofE])
  rcases oa with _ | a
  · exact absurd hE (by simp [ProductionZKProofGenerator.verifyProductionProofE])
  rcases ob with _ | b
  · simp only [ProductionZKProofGenerator.verifyProductionProofE] at hE
    repeat' split at hE
    all_goals exact Except.noConfusion hE
  rcases oc with _ | c
  · simp only [ProductionZKProofGenerator.verifyProductionProofE] at hE
    repeat' split at hE
    all_goals exact Except.noConfusion hE
  have hv := ProductionZKProofGenerator.verifyE_validate rfl rfl rfl rfl hE
  obtain ⟨b1, b2, b3, b4, b5, b6, b7, b8⟩ :=
    ProductionZKProofGenerator.validateCurvePoints_ok_true hv
  have hall : ∀ y ∈ [a.getD 0 0, a.getD 1 0,
      (b.headD []).getD 0 0, (b.headD []).getD 1 0,
      (b.getD 1 []).getD 0 0, (b.getD 1 []).getD 1 0,
      c.getD 0 0, c.getD 1 0], y < ProductionZKProofGenerator.bn128Prime := by
    intro y hy
    simp only [List.mem_cons, List.not_mem_nil, or_false] at hy
    rcases hy with rfl | rfl | rfl | rfl | rfl | rfl | rfl | rfl
    · exact b1
    · exact b2
    · rw [ProductionZKProofGenerator.headD_eq_getD]; exact b3
    · rw [ProductionZKProofGenerator.headD_eq_getD]; exact b4
    · exact b5
    · exact b6
    · exact b7
    · exact b8
  intro x hx
  exact hall x hx

/-- Witness for C3 (amended): a concrete accepted proof; applying the
theorem at coordinate 3 yields its field bound. -/
theorem malformed_point_field_only_witness :
    ProductionZKProofGenerator.verifyProductionProof
      ⟨some ⟨some [1, 2], some [[3, 4], [5, 6]], some [7, 8], some [1, 1, 0]⟩⟩ = true ∧
    3 < ProductionZKProofGenerator.bn128Prime :=
  ⟨by decide,
   malformed_point_field_only
     ⟨some ⟨some [1, 2], some [[3, 4], [5, 6]], some [7, 8], some [1, 1, 0]⟩⟩
     (by decide) 3 (by decide)⟩

/-- C4: from any state in which the proof hash is unused and the call
succeeds, borrowWithProof records the hash exactly once at acceptance time,
and an immediately repeated call with the same proof hash is rejected as a
replay (the membership check precedes acceptance and precedes all later
requires). -/
theorem replay_detection (contractHash : Nat → Nat → Nat → Nat)
    (s : VaultSDKProtocol.ContractState) (proofHash stakeAmount user : Nat)
    (hp : s.paused = false) (h0 : proofHash ≠ 0) (hs : stakeAmount ≠ 0)
    (hu : user ≠ 0) (hnew : proofHash ∉ s.usedProofs)
    (hsim : VaultSDKProtocol.simulateProofVerification contractHash
      proofHash stakeAmount user = true)
    (hliq : stakeAmount * 70 / 100 ≤ s.totalLiquidity) :
    (∃ s', VaultSDKProtocol.borrowWithProof contractHash s
      proofHash stakeAmount user = Except.ok s') ∧
    (∀ s', VaultSDKProtocol.borrowWithProof contractHash s
        proofHash stakeAmount user = Except.ok s' →
      s'.usedProofs = proofHash :: s.usedProofs ∧
      VaultSDKProtocol.borrowWithProof contractHash s'
        proofHash stakeAmount user = Except.error "Proof already used") := by
  have hnl : ¬ s.totalLiquidity < stakeAmount * 70 / 100 := Nat.not_lt.mpr hliq
  have hok : VaultSDKProtocol.borrowWithProof contractHash s proofHash stakeAmount user =
      Except.ok { s with
        usedProofs := proofHash :: s.usedProofs,
        userBorrows := fun a =>
          if a = user then s.userBorrows a + stakeAmount * 70 / 100 else s.userBorrows a,
        userCollateral := fun a =>
          if a = user then s.userCollateral a + stakeAmount else s.userCollateral a,
        totalBorrowed := s.totalBorrowed + stakeAmount * 70 / 100,
        totalLiquidity := s.totalLiquidity - stakeAmount * 70 / 100 } := by
    simp [VaultSDKProtocol.borrowWithProof, hp, h0, hs, hu, hnew, hsim, hnl]
  refine ⟨⟨_, hok⟩, ?_⟩
  intro s' h
  rw [hok] at h
  cases h
  refine ⟨rfl, ?_⟩
  simp [VaultSDKProtocol.borrowWithProof, hp, h0, hs, hu]

/-- Witness for C4: a fresh state with ample liquidity; the first borrow
succeeds and the immediate replay with the same proof hash fails. -/
theorem replay_detection_witness :
    (VaultSDKProtocol.borrowWithProof (fun _ _ _ => 1)
      ⟨false, [], fun _ => 0, fun _ => 0, 0, 1000000⟩ 9 10 3).isOk = true ∧
    (VaultSDKProtocol.borrowWithProof (fun _ _ _ => 1)
      ⟨false, [], fun _ => 0, fun _ => 0, 0, 1000000⟩ 9 10 3).bind
      (fun s' => VaultSDKProtocol.borrowWithProof (fun _ _ _ => 1) s' 9 10 3) =
      Except.error "Proof already used" := by
  obtain ⟨⟨s', hok⟩, hall⟩ :=
    replay_detection (fun _ _ _ => 1)
      ⟨false, [], fun _ => 0, fun _ => 0, 0, 1000000⟩ 9 10 3
      rfl (by decide) (by decide) (by decide) (by simp)
      (by decide) (by decide)
  obtain ⟨-, hrep⟩ := hall s' hok
  rw [hok]
  exact ⟨rfl, hrep⟩

